import Mathlib

/-!
Verification of the financial calculators in `manimarks.py` (personal
finance toolkit): the compounding engine (`savings_projection`,
`lump_sum_growth`), the goal solver (`sip_needed`) and the configurable
progressive tax evaluator (`estimate_tax`).

Real-number arithmetic of the source is embedded over `ℚ`; year counts are
`ℕ`.  The goal solver, whose Python body can raise `ZeroDivisionError`, is
embedded with an `Option` result where `none` marks the raised error.
-/

namespace Electrovolt

/-- One compounding period of the savings loop, iterated `n` times:
`fv = (fv + monthly_saving) * (1 + r)` starting from `fv = 0`.  This is the
body of the `for _ in range(n)` loop of `savings_projection`. -/
def fvIter (monthly_saving r : ℚ) : ℕ → ℚ
  | 0 => 0
  | n + 1 => (fvIter monthly_saving r n + monthly_saving) * (1 + r)

/-- `savings_projection(monthly_saving, annual_rate_pct, years)`:
future value of a monthly saving with monthly compounding, computed by the
iterative loop of the source (`r = annual_rate_pct/100/12`, `n = years*12`). -/
def savings_projection (monthly_saving annual_rate_pct : ℚ) (years : ℕ) : ℚ :=
  fvIter monthly_saving (annual_rate_pct / 100 / 12) (years * 12)

/-- `lump_sum_growth(principal, annual_rate_pct, years)`:
`principal * ((1 + r) ** years)` with `r = annual_rate_pct / 100`. -/
def lump_sum_growth (principal annual_rate_pct : ℚ) (years : ℕ) : ℚ :=
  principal * (1 + annual_rate_pct / 100) ^ years

/-- `sip_needed(goal_amount, annual_rate_pct, years)`: monthly SIP needed to
reach the goal.  `r = annual_rate_pct/100/12`, `n = years*12`; if `r = 0` the
source computes `goal_amount / n`, otherwise
`goal_amount * r / ((1+r)**n - 1)`.  Python raises `ZeroDivisionError` when
the divisor is zero; that error is modelled as `none`. -/
def sip_needed (goal_amount annual_rate_pct : ℚ) (years : ℕ) : Option ℚ :=
  let r := annual_rate_pct / 100 / 12
  let n := years * 12
  if r = 0 then
    if (n : ℚ) = 0 then none else some (goal_amount / (n : ℚ))
  else
    if (1 + r) ^ n - 1 = 0 then none
    else some (goal_amount * r / ((1 + r) ^ n - 1))

/-- The loop of `estimate_tax`, with the loop state (`tax`, `prev_limit`,
`remaining`) passed explicitly.  A slab is `(upper_limit, rate_pct)` where
`none` is Python's `None` ("rest").  `limit.getD prev_limit` is
`limit if limit is not None else prev_limit`. -/
def estimate_taxAux : ℚ → ℚ → ℚ → List (Option ℚ × ℚ) → ℚ
  | tax, _, _, [] => tax
  | tax, prev_limit, remaining, (limit, rate) :: rest =>
    let taxable_here : ℚ :=
      match limit with
      | none => remaining
      | some l => max 0 (min remaining (l - prev_limit))
    if taxable_here ≤ 0 then
      estimate_taxAux tax (limit.getD prev_limit) remaining rest
    else
      if remaining - taxable_here ≤ 0 then tax + taxable_here * (rate / 100)
      else
        estimate_taxAux (tax + taxable_here * (rate / 100))
          (limit.getD prev_limit) (remaining - taxable_here) rest

/-- `estimate_tax(taxable_income, slabs)`: the configurable progressive tax
evaluator, starting from `tax = 0.0`, `prev_limit = 0.0`,
`remaining = taxable_income`. -/
def estimate_tax (taxable_income : ℚ) (slabs : List (Option ℚ × ℚ)) : ℚ :=
  estimate_taxAux 0 0 taxable_income slabs

/-- The walk described by the specification of `computeTax`: maintain a
running tax total, `previousUpperBound` and `remaining`; per bracket the
amount taxed is all of `remaining` if the bracket is unbounded, else
`max(0, min(remaining, upperBound - previousUpperBound))`; a bracket with
amount ≤ 0 is skipped (the upper bound, when present, still advances);
otherwise `amount * rate/100` is added, `amount` is subtracted from
`remaining`, the bound advances, and the walk stops once `remaining ≤ 0`. -/
def computeTaxWalk : ℚ → ℚ → ℚ → List (Option ℚ × ℚ) → ℚ
  | total, _, _, [] => total
  | total, prevUB, remaining, (ub, rate) :: brackets =>
    let amount : ℚ :=
      match ub with
      | none => remaining
      | some b => max 0 (min remaining (b - prevUB))
    if amount ≤ 0 then computeTaxWalk total (ub.getD prevUB) remaining brackets
    else
      let total' := total + amount * (rate / 100)
      if remaining - amount ≤ 0 then total'
      else computeTaxWalk total' (ub.getD prevUB) (remaining - amount) brackets

/-- The recurrence of the specification of `recurringContributionFutureValue`:
balance starts at 0 and each period becomes
`(balance + monthlyAmount) * (1 + monthlyRate)`. -/
def specBalance (monthlyAmount monthlyRate : ℚ) : ℕ → ℚ
  | 0 => 0
  | k + 1 => (specBalance monthlyAmount monthlyRate k + monthlyAmount) * (1 + monthlyRate)

/-- `recurringContributionFutureValue` as the specification words it:
iterate the recurrence for `years * 12` periods at monthly rate
`annualRatePercent / 100 / 12`. -/
def recurringContributionFutureValueSpec
    (monthlyAmount annualRatePercent : ℚ) (years : ℕ) : ℚ :=
  specBalance monthlyAmount (annualRatePercent / 100 / 12) (years * 12)

/-- The ordinary-annuity closed-form future value of the specification:
`payment * ((1+r)^n - 1) / r` with `r = rate/100/12`, `n = years*12`. -/
def annuityFV (payment annualRatePercent : ℚ) (years : ℕ) : ℚ :=
  payment * ((1 + annualRatePercent / 100 / 12) ^ (years * 12) - 1)
    / (annualRatePercent / 100 / 12)

/-- A slab table is ascending when its bounded upper limits strictly increase
(starting above 0) and an unbounded bracket, if present, is last. -/
def ascendingFrom (lo : ℚ) : List (Option ℚ × ℚ) → Bool
  | [] => true
  | (none, _) :: rest => rest.isEmpty
  | (some l, _) :: rest => decide (lo < l) && ascendingFrom l rest

/-- Ascending slab table, as the specification's data-model section describes
slab tables: contiguous bands starting at 0, bounds ascending, at most one
unbounded bracket which must be last. -/
def ascendingSlabs (slabs : List (Option ℚ × ℚ)) : Bool :=
  ascendingFrom 0 slabs

/-- All rates of a slab table are non-negative. -/
def ratesNonneg (slabs : List (Option ℚ × ℚ)) : Prop :=
  ∀ p ∈ slabs, (0 : ℚ) ≤ p.2

end Electrovolt

namespace Electrovolt

/-! ### Basic lemmas about the savings loop -/

theorem fvIter_nonneg {m r : ℚ} (hm : 0 ≤ m) (hr : 0 ≤ r) :
    ∀ n : ℕ, 0 ≤ fvIter m r n
  | 0 => le_refl 0
  | n + 1 => by
    have ih := fvIter_nonneg hm hr n
    have h1 : (0 : ℚ) ≤ fvIter m r n + m := add_nonneg ih hm
    have h2 : (0 : ℚ) ≤ 1 + r := by linarith
    simpa [fvIter] using mul_nonneg h1 h2

theorem fvIter_mono_rate {m r₁ r₂ : ℚ} (hm : 0 ≤ m) (h1 : 0 ≤ r₁) (h12 : r₁ ≤ r₂) :
    ∀ n : ℕ, fvIter m r₁ n ≤ fvIter m r₂ n
  | 0 => le_refl 0
  | n + 1 => by
    have ih := fvIter_mono_rate hm h1 h12 n
    have hn1 : 0 ≤ fvIter m r₁ n := fvIter_nonneg hm h1 n
    have ha : fvIter m r₁ n + m ≤ fvIter m r₂ n + m := by linarith
    have hb : (1 : ℚ) + r₁ ≤ 1 + r₂ := by linarith
    have hc : (0 : ℚ) ≤ fvIter m r₁ n + m := add_nonneg hn1 hm
    have hd : (0 : ℚ) ≤ 1 + r₁ := by linarith
    have he : (0 : ℚ) ≤ fvIter m r₂ n + m := le_trans hc ha
    simpa [fvIter] using mul_le_mul ha hb hd he

theorem specBalance_eq_fvIter (m r : ℚ) : ∀ n, specBalance m r n = fvIter m r n
  | 0 => rfl
  | n + 1 => by simp [specBalance, fvIter, specBalance_eq_fvIter m r n]

/-! ### Lemmas about the tax loop -/

theorem estimate_taxAux_eq_walk :
    ∀ (slabs : List (Option ℚ × ℚ)) (tax prev rem : ℚ),
      estimate_taxAux tax prev rem slabs = computeTaxWalk tax prev rem slabs
  | [], _, _, _ => rfl
  | (limit, rate) :: rest, tax, prev, rem => by
    simp only [estimate_taxAux, computeTaxWalk]
    split
    · exact estimate_taxAux_eq_walk rest tax (limit.getD prev) rem
    · split
      · rfl
      · exact estimate_taxAux_eq_walk rest (tax + _ * (rate / 100)) (limit.getD prev) (rem - _)

/-- With a non-positive `remaining`, the loop never adds tax: every bounded
bracket's amount is `max 0 _ = 0` (skipped) and an unbounded bracket's amount
is `remaining ≤ 0` (skipped). -/
theorem estimate_taxAux_of_nonpos :
    ∀ (slabs : List (Option ℚ × ℚ)) (tax prev rem : ℚ), rem ≤ 0 →
      estimate_taxAux tax prev rem slabs = tax
  | [], _, _, _, _ => rfl
  | (limit, rate) :: rest, tax, prev, rem, hrem => by
    simp only [estimate_taxAux]
    have hskip :
        (match limit with
          | none => rem
          | some l => max 0 (min rem (l - prev))) ≤ 0 := by
      cases limit with
      | none => exact hrem
      | some l => exact max_le le_rfl (le_trans (min_le_left _ _) hrem)
    rw [if_pos hskip]
    exact estimate_taxAux_of_nonpos rest tax (limit.getD prev) rem hrem

/-- With non-negative rates, the loop never decreases the accumulated tax. -/
theorem le_estimate_taxAux :
    ∀ (slabs : List (Option ℚ × ℚ)), ratesNonneg slabs →
      ∀ (tax prev rem : ℚ), tax ≤ estimate_taxAux tax prev rem slabs
  | [], _, _, _, _ => le_refl _
  | (limit, rate) :: rest, hrates, tax, prev, rem => by
    have hrate : (0 : ℚ) ≤ rate := hrates (limit, rate) (List.mem_cons_self _ _)
    have hrest : ratesNonneg rest := fun p hp => hrates p (List.mem_cons_of_mem _ hp)
    have key : ∀ t : ℚ,
        tax ≤ (if t ≤ 0 then estimate_taxAux tax (limit.getD prev) rem rest
               else if rem - t ≤ 0 then tax + t * (rate / 100)
               else estimate_taxAux (tax + t * (rate / 100)) (limit.getD prev)
                 (rem - t) rest) := by
      intro t
      split
      · exact le_estimate_taxAux rest hrest tax (limit.getD prev) rem
      · rename_i hpos
        push_neg at hpos
        have hadd : tax ≤ tax + t * (rate / 100) := by
          have : (0 : ℚ) ≤ t * (rate / 100) :=
            mul_nonneg (le_of_lt hpos) (by positivity)
          linarith
        split
        · exact hadd
        · exact le_trans hadd (le_estimate_taxAux rest hrest _ _ _)
    cases limit with
    | none => simpa [estimate_taxAux] using key rem
    | some l => simpa [estimate_taxAux] using key (max 0 (min rem (l - prev)))

/-- With non-negative rates the tax loop is monotone in the accumulated tax
and in the remaining income (for a common `prev_limit`). -/
theorem estimate_taxAux_mono :
    ∀ (slabs : List (Option ℚ × ℚ)), ratesNonneg slabs →
      ∀ (prev tax₁ tax₂ rem₁ rem₂ : ℚ), tax₁ ≤ tax₂ → rem₁ ≤ rem₂ →
      estimate_taxAux tax₁ prev rem₁ slabs ≤ estimate_taxAux tax₂ prev rem₂ slabs
  | [], _, _, _, _, _, _, htax, _ => htax
  | (limit, rate) :: rest, hrates, prev, tax₁, tax₂, rem₁, rem₂, htax, hrem => by
    have hrate : (0 : ℚ) ≤ rate := hrates (limit, rate) (List.mem_cons_self _ _)
    have hrest : ratesNonneg rest := fun p hp => hrates p (List.mem_cons_of_mem _ hp)
    have key : ∀ t₁ t₂ : ℚ, t₁ ≤ t₂ →
        (t₁ ≤ 0 → 0 < t₂ → rem₁ ≤ 0) →
        (0 < t₁ → rem₁ - t₁ ≤ rem₂ - t₂) →
        (if t₁ ≤ 0 then estimate_taxAux tax₁ (limit.getD prev) rem₁ rest
         else if rem₁ - t₁ ≤ 0 then tax₁ + t₁ * (rate / 100)
         else estimate_taxAux (tax₁ + t₁ * (rate / 100)) (limit.getD prev)
           (rem₁ - t₁) rest)
        ≤ (if t₂ ≤ 0 then estimate_taxAux tax₂ (limit.getD prev) rem₂ rest
         else if rem₂ - t₂ ≤ 0 then tax₂ + t₂ * (rate / 100)
         else estimate_taxAux (tax₂ + t₂ * (rate / 100)) (limit.getD prev)
           (rem₂ - t₂) rest) := by
      intro t₁ t₂ ht hA hB
      by_cases h1 : t₁ ≤ 0
      · rw [if_pos h1]
        by_cases h2 : t₂ ≤ 0
        · rw [if_pos h2]
          exact estimate_taxAux_mono rest hrest (limit.getD prev) _ _ _ _ htax hrem
        · push_neg at h2
          rw [if_neg (not_le_of_lt h2)]
          have hrem1 : rem₁ ≤ 0 := hA h1 h2
          rw [estimate_taxAux_of_nonpos rest tax₁ (limit.getD prev) rem₁ hrem1]
          have htax2 : tax₂ ≤ tax₂ + t₂ * (rate / 100) := by
            have : (0 : ℚ) ≤ t₂ * (rate / 100) :=
              mul_nonneg (le_of_lt h2) (by positivity)
            linarith
          by_cases h3 : rem₂ - t₂ ≤ 0
          · rw [if_pos h3]; linarith
          · rw [if_neg h3]
            exact le_trans (le_trans htax htax2)
              (le_estimate_taxAux rest hrest _ _ _)
      · push_neg at h1
        have h2 : ¬ t₂ ≤ 0 := not_le_of_lt (lt_of_lt_of_le h1 ht)
        rw [if_neg (not_le_of_lt h1), if_neg h2]
        have htax' : tax₁ + t₁ * (rate / 100) ≤ tax₂ + t₂ * (rate / 100) :=
          add_le_add htax (mul_le_mul_of_nonneg_right ht (by positivity))
        have hrem' : rem₁ - t₁ ≤ rem₂ - t₂ := hB h1
        by_cases h3 : rem₁ - t₁ ≤ 0
        · rw [if_pos h3]
          by_cases h4 : rem₂ - t₂ ≤ 0
          · rw [if_pos h4]; exact htax'
          · rw [if_neg h4]
            exact le_trans htax' (le_estimate_taxAux rest hrest _ _ _)
        · rw [if_neg h3]
          have h4 : ¬ rem₂ - t₂ ≤ 0 := fun h => h3 (le_trans hrem' h)
          rw [if_neg h4]
          exact estimate_taxAux_mono rest hrest (limit.getD prev) _ _ _ _ htax' hrem'
    cases limit with
    | none =>
      have := key rem₁ rem₂ hrem (fun h _ => h) (fun _ => by linarith)
      simpa [estimate_taxAux] using this
    | some l =>
      have ht : max 0 (min rem₁ (l - prev)) ≤ max 0 (min rem₂ (l - prev)) :=
        max_le_max le_rfl (min_le_min hrem le_rfl)
      have hA : max 0 (min rem₁ (l - prev)) ≤ 0 → 0 < max 0 (min rem₂ (l - prev)) →
          rem₁ ≤ 0 := by
        intro ha hb
        have hmin1 : min rem₁ (l - prev) ≤ 0 := le_trans (le_max_right 0 _) ha
        have hmin2 : 0 < min rem₂ (l - prev) := by
          rcases lt_max_iff.mp hb with h | h
          · exact absurd h (lt_irrefl 0)
          · exact h
        have hd : 0 < l - prev := lt_of_lt_of_le hmin2 (min_le_right _ _)
        rcases min_le_iff.mp hmin1 with h | h
        · exact h
        · linarith
      have hB : 0 < max 0 (min rem₁ (l - prev)) →
          rem₁ - max 0 (min rem₁ (l - prev)) ≤ rem₂ - max 0 (min rem₂ (l - prev)) := by
        intro hpos
        have hmin1 : 0 < min rem₁ (l - prev) := by
          rcases lt_max_iff.mp hpos with h | h
          · exact absurd h (lt_irrefl 0)
          · exact h
        have e1 : max 0 (min rem₁ (l - prev)) = min rem₁ (l - prev) :=
          max_eq_right (le_of_lt hmin1)
        have hmin2 : 0 < min rem₂ (l - prev) :=
          lt_of_lt_of_le hmin1 (min_le_min hrem le_rfl)
        have e2 : max 0 (min rem₂ (l - prev)) = min rem₂ (l - prev) :=
          max_eq_right (le_of_lt hmin2)
        rw [e1, e2]
        rcases le_total rem₁ (l - prev) with h | h <;>
          rcases le_total rem₂ (l - prev) with h' | h' <;>
            simp [min_eq_left, min_eq_right, h, h'] <;> linarith
      have := key _ _ ht hA hB
      simpa [estimate_taxAux] using this

/-! ### Claim theorems -/

/-- Claim C1: for every taxable income and every slab table, `estimate_tax`
returns exactly the result of the specified bracket walk, and on the concrete
scenario table `[(250000,0),(500000,5),(1000000,20),(unbounded,30)]` at
income 800000 the result is 72500. -/
theorem claim_C1 :
    (∀ (income : ℚ) (slabs : List (Option ℚ × ℚ)),
      estimate_tax income slabs = computeTaxWalk 0 0 income slabs) ∧
    estimate_tax 800000
      [(some 250000, 0), (some 500000, 5), (some 1000000, 20), (none, 30)]
      = 72500 := by
  constructor
  · intro income slabs
    exact estimate_taxAux_eq_walk slabs 0 0 income
  · norm_num [estimate_tax, estimate_taxAux]

/-- Claim C2: `savings_projection` equals the specification's iterative
recurrence (balance starts at 0; each of the `years*12` periods multiplies
`balance + monthlyAmount` by `1 + rate/100/12`); for `years = 0` the result
is 0; and for non-negative amount and rate the result is non-negative. -/
theorem claim_C2 :
    ∀ (m rate : ℚ) (years : ℕ),
      savings_projection m rate years = recurringContributionFutureValueSpec m rate years ∧
      savings_projection m rate 0 = 0 ∧
      (0 ≤ m → 0 ≤ rate → 0 ≤ savings_projection m rate years) := by
  intro m rate years
  refine ⟨(specBalance_eq_fvIter _ _ _).symm, rfl, fun hm hr => ?_⟩
  have hr' : (0 : ℚ) ≤ rate / 100 / 12 := by
    exact div_nonneg (div_nonneg hr (by norm_num)) (by norm_num)
  exact fvIter_nonneg hm hr' _

/-- Witness for claim C2 at `m = 1`, `rate = 0`, `years = 1`. -/
theorem claim_C2_witness :
    savings_projection 1 0 1 = recurringContributionFutureValueSpec 1 0 1 ∧
    savings_projection 1 0 0 = 0 ∧
    0 ≤ savings_projection 1 0 1 :=
  ⟨(claim_C2 1 0 1).1, (claim_C2 1 0 0).2.1,
    (claim_C2 1 0 1).2.2 (by norm_num) (by norm_num)⟩

/-- Claim C4: `lump_sum_growth` is the closed form
`principal * (1 + rate/100) ^ years`; at `years = 0` it returns the
principal, and at rate 0 it returns the principal for every year count. -/
theorem claim_C4 :
    ∀ (p rate : ℚ) (years : ℕ),
      lump_sum_growth p rate years = p * (1 + rate / 100) ^ years ∧
      lump_sum_growth p rate 0 = p ∧
      lump_sum_growth p 0 years = p := by
  intro p rate years
  refine ⟨rfl, ?_, ?_⟩
  · simp [lump_sum_growth]
  · simp [lump_sum_growth]

/-- Claim C8: on any income and any non-empty slab table — malformed tables
included — `estimate_tax` returns a unique value determined by its arguments
(it is a total function of them). -/
theorem claim_C8 :
    ∀ (income : ℚ) (slabs : List (Option ℚ × ℚ)), slabs ≠ [] →
      ∃! t : ℚ, estimate_tax income slabs = t := by
  intro income slabs _
  exact ⟨estimate_tax income slabs, rfl, fun y hy => hy.symm⟩

/-- Witness for claim C8 on a malformed (non-ascending) table. -/
theorem claim_C8_witness :
    ([(some 500, 5), (some 100, 10)] : List (Option ℚ × ℚ)) ≠ [] ∧
    ∃! t : ℚ, estimate_tax 700 [(some 500, 5), (some 100, 10)] = t :=
  ⟨by simp, claim_C8 700 [(some 500, 5), (some 100, 10)] (by simp)⟩

/-- Claim C9: non-positive taxable income yields zero tax on every slab
table: every bounded bracket contributes `max 0 _ = 0` and an unbounded
bracket's amount is the non-positive remaining, so nothing is ever added. -/
theorem claim_C9 :
    ∀ (income : ℚ) (slabs : List (Option ℚ × ℚ)), income ≤ 0 →
      estimate_tax income slabs = 0 := by
  intro income slabs h
  exact estimate_taxAux_of_nonpos slabs 0 0 income h

/-- Witness for claim C9 at income −5 on a two-bracket table. -/
theorem claim_C9_witness :
    (-5 : ℚ) ≤ 0 ∧ estimate_tax (-5) [(some 10, 50), (none, 30)] = 0 :=
  ⟨by norm_num, claim_C9 (-5) [(some 10, 50), (none, 30)] (by norm_num)⟩

/-- Claim C10: `sip_needed` at `years = 0` always fails with a division by
zero (modelled as `none`): with zero monthly rate it divides by `n = 0`, and
otherwise by `(1+r)^0 - 1 = 0`. -/
theorem claim_C10 :
    ∀ (goal rate : ℚ), sip_needed goal rate 0 = none := by
  intro goal rate
  simp [sip_needed]

/-- Counterexample to claim C3 as stated: at `annualRatePercent = -2400`
(monthly rate −2) and `years = 1` the divisor `(1+r)^12 - 1` is zero, so the
source raises `ZeroDivisionError` (`none`) instead of returning the claimed
quotient. -/
theorem claim_C3_cex : sip_needed 100 (-2400) 1 = none := by
  norm_num [sip_needed]

/-- Claim C3 as amended: for `years > 0`, when the rate is 0 the result is
`goalAmount / n`; when the rate is neither 0 nor −2400 (the one rate whose
monthly factor `1+r = -1` zeroes the divisor `(1+r)^n - 1`, `n` being even),
the result is `goalAmount * r / ((1+r)^n - 1)`. -/
theorem claim_C3_amended :
    ∀ (goal rate : ℚ) (years : ℕ), 0 < years →
      (rate = 0 → sip_needed goal rate years = some (goal / ((years * 12 : ℕ) : ℚ))) ∧
      (rate ≠ 0 → rate ≠ -2400 →
        sip_needed goal rate years =
          some (goal * (rate / 100 / 12) /
            ((1 + rate / 100 / 12) ^ (years * 12) - 1))) := by
  intro goal rate years hy
  constructor
  · intro h0
    subst h0
    have hn : ((years * 12 : ℕ) : ℚ) ≠ 0 := by
      have h : years * 12 ≠ 0 := by omega
      exact_mod_cast h
    simp [sip_needed, hn]
    omega
  · intro hne h2400
    have hr : rate / 100 / 12 ≠ 0 := by
      intro h
      apply hne
      field_simp at h
      exact h
    have hd : (1 + rate / 100 / 12) ^ (years * 12) - 1 ≠ 0 := by
      intro h
      have hpow : (1 + rate / 100 / 12) ^ (years * 12) = 1 := by linarith
      have hn : years * 12 ≠ 0 := by omega
      rcases (pow_eq_one_iff_of_ne_zero hn).mp hpow with h1 | ⟨h1, _⟩
      · exact hr (by linarith)
      · apply h2400
        have h2 : rate / 100 / 12 = -2 := by linarith
        field_simp at h2
        linarith
    simp [sip_needed, hr, hd]

/-- Witness for the amended claim C3: the zero-rate branch at
`goal = 1200, years = 1` and the positive-rate branch at
`goal = 100, rate = 1200, years = 1`. -/
theorem claim_C3_amended_witness :
    sip_needed 1200 0 1 = some (1200 / ((1 * 12 : ℕ) : ℚ)) ∧
    sip_needed 100 1200 1 =
      some (100 * ((1200 : ℚ) / 100 / 12) /
        ((1 + (1200 : ℚ) / 100 / 12) ^ (1 * 12) - 1)) :=
  ⟨(claim_C3_amended 1200 0 1 (by norm_num)).1 rfl,
   (claim_C3_amended 100 1200 1 (by norm_num)).2 (by norm_num) (by norm_num)⟩

/-- Claim C5: for positive rate and years, the payment returned by
`sip_needed` fed back through the ordinary-annuity closed-form future value
`payment * ((1+r)^n - 1) / r` reproduces the goal exactly. -/
theorem claim_C5 :
    ∀ (goal rate : ℚ) (years : ℕ), 0 < rate → 0 < years →
      ∃ p : ℚ, sip_needed goal rate years = some p ∧
        annuityFV p rate years = goal := by
  intro goal rate years hrate hy
  have hr : 0 < rate / 100 / 12 := by positivity
  have hr' : rate / 100 / 12 ≠ 0 := ne_of_gt hr
  have hn : years * 12 ≠ 0 := by omega
  have hpow : 1 < (1 + rate / 100 / 12) ^ (years * 12) :=
    one_lt_pow₀ (by linarith) hn
  have hd : (1 + rate / 100 / 12) ^ (years * 12) - 1 ≠ 0 := by linarith
  refine ⟨goal * (rate / 100 / 12) / ((1 + rate / 100 / 12) ^ (years * 12) - 1),
    ?_, ?_⟩
  · simp [sip_needed, hr', hd]
  · unfold annuityFV
    rw [div_mul_cancel₀ _ hd]
    exact mul_div_cancel_right₀ goal hr'

/-- Witness for claim C5 at `goal = 100`, `rate = 1200`, `years = 1`. -/
theorem claim_C5_witness :
    ∃ p : ℚ, sip_needed 100 1200 1 = some p ∧ annuityFV p 1200 1 = 100 :=
  claim_C5 100 1200 1 (by norm_num) (by norm_num)

/-- Counterexample to claim C6 as stated: the ascending table
`[(unbounded, -10)]` gives a negative tax on the non-negative income 100
(and hence also breaks monotonicity from income 0). -/
theorem claim_C6_cex :
    ascendingSlabs [(none, -10)] = true ∧ (0 : ℚ) ≤ 100 ∧
    estimate_tax 100 [(none, -10)] < 0 := by
  refine ⟨rfl, by norm_num, ?_⟩
  norm_num [estimate_tax, estimate_taxAux]

/-- Claim C6 as amended: for a fixed ascending slab table all of whose rates
are non-negative, `estimate_tax` is non-negative on non-negative income and
monotonically non-decreasing in income (monotonicity with no sign restriction
on the incomes). -/
theorem claim_C6_amended :
    ∀ (slabs : List (Option ℚ × ℚ)), ascendingSlabs slabs = true →
      ratesNonneg slabs →
      ∀ income₁ income₂ : ℚ, income₁ ≤ income₂ →
        (0 ≤ income₁ → 0 ≤ estimate_tax income₁ slabs) ∧
        estimate_tax income₁ slabs ≤ estimate_tax income₂ slabs := by
  intro slabs _ hrates income₁ income₂ h12
  exact ⟨fun _ => le_estimate_taxAux slabs hrates 0 0 income₁,
    estimate_taxAux_mono slabs hrates 0 0 0 income₁ income₂ le_rfl h12⟩

/-- Witness for the amended claim C6 on the scenario table at incomes
100 ≤ 300000. -/
theorem claim_C6_amended_witness :
    0 ≤ estimate_tax 100 [(some 250000, 0), (some 500000, 5), (none, 30)] ∧
    estimate_tax 100 [(some 250000, 0), (some 500000, 5), (none, 30)] ≤
      estimate_tax 300000 [(some 250000, 0), (some 500000, 5), (none, 30)] :=
  ⟨(claim_C6_amended [(some 250000, 0), (some 500000, 5), (none, 30)]
      (by norm_num [ascendingSlabs, ascendingFrom])
      (by norm_num [ratesNonneg]) 100 300000 (by norm_num)).1 (by norm_num),
   (claim_C6_amended [(some 250000, 0), (some 500000, 5), (none, 30)]
      (by norm_num [ascendingSlabs, ascendingFrom])
      (by norm_num [ratesNonneg]) 100 300000 (by norm_num)).2⟩

/-- Counterexample to claim C7 as stated: with the negative principal −1 and
rates 0 ≤ 1200, `lump_sum_growth` strictly decreases
(−1 at rate 0 versus −13 at rate 1200 over one year). -/
theorem claim_C7_cex :
    (0 : ℚ) ≤ 0 ∧ (0 : ℚ) ≤ 1200 ∧
    ¬ lump_sum_growth (-1) 0 1 ≤ lump_sum_growth (-1) 1200 1 := by
  refine ⟨le_rfl, by norm_num, ?_⟩
  norm_num [lump_sum_growth]

/-- Claim C7 as amended: monotonicity in the rate holds once the principal,
respectively the monthly amount, is non-negative: for `0 ≤ r₁ ≤ r₂` neither
`lump_sum_growth` nor `savings_projection` decreases when the rate grows. -/
theorem claim_C7_amended :
    ∀ (p m r₁ r₂ : ℚ) (years : ℕ), 0 ≤ p → 0 ≤ m → 0 ≤ r₁ → r₁ ≤ r₂ →
      lump_sum_growth p r₁ years ≤ lump_sum_growth p r₂ years ∧
      savings_projection m r₁ years ≤ savings_projection m r₂ years := by
  intro p m r₁ r₂ years hp hm h1 h12
  constructor
  · unfold lump_sum_growth
    refine mul_le_mul_of_nonneg_left ?_ hp
    exact pow_le_pow_left₀ (by linarith) (by linarith) years
  · unfold savings_projection
    have ha : (0 : ℚ) ≤ r₁ / 100 / 12 := by linarith
    have hb : r₁ / 100 / 12 ≤ r₂ / 100 / 12 := by linarith
    exact fvIter_mono_rate hm ha hb _

/-- Witness for the amended claim C7 at `p = m = 1`, rates 0 ≤ 12, two
years. -/
theorem claim_C7_amended_witness :
    lump_sum_growth 1 0 2 ≤ lump_sum_growth 1 12 2 ∧
    savings_projection 1 0 2 ≤ savings_projection 1 12 2 :=
  claim_C7_amended 1 1 0 12 2 (by norm_num) (by norm_num) (by norm_num)
    (by norm_num)

end Electrovolt
